import Mathlib

/-!
Verification development for the Coaty communication core
(repository `coaty-js`, v1.5.0 sample).

The sampled sources are embedded shallowly:
* `src/com/call-return.ts` — `CallEvent`, `CallEventData`, `ReturnEvent`,
  `ReturnEventData` with their payload validation, JSON round trip and
  context-filter matching;
* `src/runtime/container.ts` — the IoC container's controller registry and
  controller lifecycle dispatch;
* the communication topic codec (`communication-topic.ts` is not part of the
  sample; it is modelled from the specification, pinned by the unit tests of
  `test/spec/communication.spec.ts`).

JavaScript values that may be `undefined` are embedded as `Option Json`
(`none` = `undefined`); a thrown `TypeError` is embedded as `Except.error` or
as a `none` result of a fallible constructor.
-/

/-- JSON values as exchanged by the framework (JS `null` is a value distinct
from `undefined`, which is represented by `Option.none` at use sites). -/
inductive Json where
  | null : Json
  | bool (b : Bool) : Json
  | num (n : Int) : Json
  | str (s : String) : Json
  | arr (elems : List Json) : Json
  | obj (fields : List (String × Json)) : Json

/-- JavaScript `typeof` on a defined value; note `typeof null` is "object". -/
def jsTypeof : Json → String
  | .null => "object"
  | .bool _ => "boolean"
  | .num _ => "number"
  | .str _ => "string"
  | .arr _ => "object"
  | .obj _ => "object"

/-- JavaScript `Array.isArray`. -/
def isJsArray : Json → Bool
  | .arr _ => true
  | _ => false

/-- JavaScript property access `v.k` on a defined value: throws a `TypeError`
on `null`, returns the field for object literals, `undefined` otherwise. -/
def jsGetProp : Json → String → Except Unit (Option Json)
  | .null, _ => .error ()
  | .obj fs, k => .ok (fs.lookup k)
  | _, _ => .ok none

/-- Event data of a Return event (`ReturnEventData` of `call-return.ts`):
`result`, `error` and `executionInfo` as stored by the constructor. -/
structure ReturnEventData where
  result : Option Json
  error : Option Json
  executionInfo : Option Json

/-- `ReturnEventData._hasValidParameters` of `call-return.ts`, line for line:
rejects when both or neither of `result`/`error` are given; for a given
`error` it requires `typeof error === "object"` and defined `code` and
`message` properties (property access on `null` throws). -/
def ReturnEventData.hasValidParameters (result error : Option Json) :
    Except Unit Bool :=
  if result.isNone && error.isNone then .ok false
  else if result.isSome && error.isSome then .ok false
  else
    match error with
    | none => .ok true
    | some e =>
      if jsTypeof e != "object" then .ok false
      else
        match jsGetProp e "code" with
        | .error u => .error u
        | .ok code =>
          match jsGetProp e "message" with
          | .error u => .error u
          | .ok msg => .ok (!(code.isNone || msg.isNone))

/-- The `ReturnEventData` constructor: stores the three arguments and throws
(`none`) unless `_hasValidParameters` cleanly returns `true`. -/
def ReturnEventData.construct (result error executionInfo : Option Json) :
    Option ReturnEventData :=
  match ReturnEventData.hasValidParameters result error with
  | .ok true => some ⟨result, error, executionInfo⟩
  | _ => none

/-- The JSON object produced by `ReturnEventData.toJsonObject`. -/
structure ReturnEventDataJson where
  result : Option Json
  error : Option Json
  executionInfo : Option Json

/-- `ReturnEventData.toJsonObject` of `call-return.ts`. -/
def ReturnEventData.toJsonObject (d : ReturnEventData) : ReturnEventDataJson :=
  ⟨d.result, d.error, d.executionInfo⟩

/-- `ReturnEventData.createFrom` of `call-return.ts`: reads `result`, `error`
and `executionInfo` off the JSON object and runs the constructor. -/
def ReturnEventData.createFrom (j : ReturnEventDataJson) : Option ReturnEventData :=
  ReturnEventData.construct j.result j.error j.executionInfo

/-- Event data of a Call event (`CallEventData` of `call-return.ts`). -/
structure CallEventData where
  parameters : Option Json
  filter : Option Json

/-- The parameter clause of `CallEventData._hasValidParameters`:
`parameters === undefined || Array.isArray(parameters) || typeof parameters === "object"`. -/
def paramsShapeOk : Option Json → Bool
  | none => true
  | some v => isJsArray v || jsTypeof v == "object"

/-- The `CallEventData` constructor: stores `parameters` and `filter` and
throws (`none`) unless the parameter shape is admissible and the context
filter is valid. `isContextFilterValid` lives in `object-filter.ts`, outside
the sample, so it is passed in as `cfv`. -/
def CallEventData.construct (cfv : Option Json → Bool)
    (parameters filter : Option Json) : Option CallEventData :=
  if paramsShapeOk parameters && cfv filter then some ⟨parameters, filter⟩
  else none

/-- The JSON object produced by `CallEventData.toJsonObject`. -/
structure CallEventDataJson where
  parameters : Option Json
  filter : Option Json

/-- `CallEventData.toJsonObject` of `call-return.ts`. -/
def CallEventData.toJsonObject (d : CallEventData) : CallEventDataJson :=
  ⟨d.parameters, d.filter⟩

/-- `CallEventData.createFrom` of `call-return.ts`. -/
def CallEventData.createFrom (cfv : Option Json → Bool) (j : CallEventDataJson) :
    Option CallEventData :=
  CallEventData.construct cfv j.parameters j.filter

/-- `CallEventData.matchesFilter` of `call-return.ts`: delegates to
`ObjectMatcher.matchesFilter` (outside the sample, passed in as `matcher`)
exactly when both the event's context filter and a context object are given,
and returns `true` in every other case. -/
def CallEventData.matchesFilter (matcher : Json → Json → Bool)
    (d : CallEventData) (context : Option Json) : Bool :=
  match d.filter, context with
  | some f, some c => matcher c f
  | _, _ => true

/-- Modelled from the spec: `isContextFilterValid` of `object-filter.ts` is
not in the sample. The spec treats the context filter as optional (an absent
filter is valid) and describes a present filter as a structured object, so a
present filter is required to be a non-null JSON object. Claims are proved
for an arbitrary validity predicate wherever possible; this model is used
only to produce concrete instances. -/
def isContextFilterValid : Option Json → Bool
  | none => true
  | some .null => false
  | some v => jsTypeof v == "object"

/-- Modelled from the spec: the characters that must not appear in operation
names, channel identifiers and object-type filters, and that readable-mode
sanitization replaces (`NUL`, `#`, `+`, `/`, spec section 4.1). -/
def isUnsafeTopicChar (c : Char) : Bool :=
  c == '\x00' || c == '#' || c == '+' || c == '/'

/-- Modelled from the spec: readable-mode name sanitization replaces every
unsafe character by `_` (spec section 4.1, `communication-topic.ts` is not in
the sample). -/
def sanitize (s : String) : String :=
  String.mk (s.toList.map (fun c => if isUnsafeTopicChar c then '_' else c))

/-- Modelled from the spec: `CommunicationTopic.isValidEventTypeFilter`
(`communication-topic.ts` is not in the sample) — operation names, channel
identifiers and object-type filters are non-empty and contain no unsafe
character (spec section 4.1, Validation). -/
def isValidEventTypeFilter (s : String) : Bool :=
  !s.toList.isEmpty && s.toList.all (fun c => !isUnsafeTopicChar c)

/-- Splitting a character list at every `/`, MQTT-level style:
`splitLevels "/a/b/" = ["", "a", "b", ""]`. -/
def splitLevels : List Char → List (List Char)
  | [] => [[]]
  | c :: cs =>
    if c = '/' then [] :: splitLevels cs
    else
      match splitLevels cs with
      | [] => [[c]]
      | l :: ls => (c :: l) :: ls

/-- Joining topic levels with `/` separators (inverse of `splitLevels`). -/
def joinLevels : List (List Char) → List Char
  | [] => []
  | [l] => l
  | l :: ls => l ++ '/' :: joinLevels ls

/-- Decimal digit characters. -/
def digitChar : Nat → Char
  | 0 => '0' | 1 => '1' | 2 => '2' | 3 => '3' | 4 => '4'
  | 5 => '5' | 6 => '6' | 7 => '7' | 8 => '8' | 9 => '9'
  | _ => '0'

/-- Fuelled decimal rendering of a natural number (most significant first). -/
def natToCharsAux : Nat → Nat → List Char
  | 0, _ => []
  | fuel + 1, n =>
    if n < 10 then [digitChar n]
    else natToCharsAux fuel (n / 10) ++ [digitChar (n % 10)]

/-- Decimal rendering of a natural number. -/
def natToChars (n : Nat) : List Char := natToCharsAux (n + 1) n

/-- Bool test for a decimal digit character. -/
def isDigitChar (c : Char) : Bool := 48 ≤ c.toNat && c.toNat ≤ 57

/-- Numeric value of a digit character. -/
def charVal (c : Char) : Nat := c.toNat - 48

/-- Value of a decimal digit string. -/
def digitsVal (cs : List Char) : Nat :=
  cs.foldl (fun a c => a * 10 + charVal c) 0

/-- Parsing a decimal natural number; fails on the empty string or any
non-digit character (the protocol-version topic level must be an integer). -/
def charsToNat (cs : List Char) : Option Nat :=
  if !cs.isEmpty && cs.all isDigitChar then some (digitsVal cs) else none

/-- Hexadecimal digit characters (either case). -/
def isHexChar (c : Char) : Bool :=
  isDigitChar c || ('a' ≤ c && c ≤ 'f') || ('A' ≤ c && c ≤ 'F')

/-- Checks a character list against hyphen-separated hex groups of the given
sizes (the canonical UUID shape is groups `[8, 4, 4, 4, 12]`). -/
def checkUuidGroups : List Nat → List Char → Bool
  | [], cs => cs.isEmpty
  | [n], cs => cs.length == n && cs.all isHexChar
  | n :: ns, cs =>
    (cs.take n).length == n && (cs.take n).all isHexChar &&
    ((cs.drop n).headD ' ' == '-') && checkUuidGroups ns (cs.drop n).tail

/-- The canonical UUID group sizes `8-4-4-4-12`. -/
def uuidShape : List Nat := [8, 4, 4, 4, 12]

/-- Canonical UUID shape on characters. -/
def isUuidChars (cs : List Char) : Bool := checkUuidGroups uuidShape cs

/-- Canonical UUID shape on strings. -/
def isUuidString (s : String) : Bool := isUuidChars s.toList

/-- Modelled from the spec: `CommunicationTopic.uuidFromLevel`
(`communication-topic.ts` is not in the sample) — a topic level is either a
bare UUID, or (readable mode) a name-prefixed level whose trailing 36
characters match the canonical UUID shape (spec section 4.1, Readable mode). -/
def uuidFromLevel (s : String) : Option String :=
  if isUuidChars s.toList then some s
  else if 36 ≤ s.toList.length then
    if isUuidChars (s.toList.drop (s.toList.length - 36)) then
      some (String.mk (s.toList.drop (s.toList.length - 36)))
    else none
  else none

/-- The closed set of communication event kinds (`communication-event.ts`). -/
inductive CommunicationEventType where
  | Advertise | Deadvertise | Channel | Discover | Resolve | Query
  | Retrieve | Update | Complete | Call | Return | Associate | IoValue | Raw
deriving DecidableEq, Repr

/-- The wire name of an event kind. -/
def eventTypeBaseName : CommunicationEventType → String
  | .Advertise => "Advertise"
  | .Deadvertise => "Deadvertise"
  | .Channel => "Channel"
  | .Discover => "Discover"
  | .Resolve => "Resolve"
  | .Query => "Query"
  | .Retrieve => "Retrieve"
  | .Update => "Update"
  | .Complete => "Complete"
  | .Call => "Call"
  | .Return => "Return"
  | .Associate => "Associate"
  | .IoValue => "IoValue"
  | .Raw => "Raw"

/-- Decoding an event kind from its wire name. -/
def eventKindFromName (s : String) : Option CommunicationEventType :=
  if s = "Advertise" then some .Advertise
  else if s = "Deadvertise" then some .Deadvertise
  else if s = "Channel" then some .Channel
  else if s = "Discover" then some .Discover
  else if s = "Resolve" then some .Resolve
  else if s = "Query" then some .Query
  else if s = "Retrieve" then some .Retrieve
  else if s = "Update" then some .Update
  else if s = "Complete" then some .Complete
  else if s = "Call" then some .Call
  else if s = "Return" then some .Return
  else if s = "Associate" then some .Associate
  else if s = "IoValue" then some .IoValue
  else if s = "Raw" then some .Raw
  else none

/-- Splitting an event-type-name level at the first `:` into the event kind
name and the optional filter suffix. -/
def breakColon : List Char → List Char × Option (List Char)
  | [] => ([], none)
  | c :: cs =>
    if c = ':' then ([], some cs)
    else
      let p := breakColon cs
      (c :: p.1, p.2)

/-- The protocol name, first topic level after the leading slash. -/
def PROTOCOL_NAME : String := "coaty"

/-- Modelled from the spec: the structured topic descriptor of
`communication-topic.ts` (not in the sample) — optional associated user
identifier level (kept in its on-wire, possibly readable form), source
identifier, event kind with optional filter suffix, message token and
protocol version (spec sections 3 and 4.1, pinned by the topic tests). -/
structure CommunicationTopic where
  associatedUserId : Option String
  sourceObjectId : String
  eventType : CommunicationEventType
  eventTypeFilter : Option String
  messageToken : String
  version : Nat
deriving DecidableEq, Repr

/-- The event-type-name topic level: the kind name, suffixed by `:<filter>`
when a filter is present. -/
def CommunicationTopic.eventTypeName (t : CommunicationTopic) : String :=
  match t.eventTypeFilter with
  | none => eventTypeBaseName t.eventType
  | some f => eventTypeBaseName t.eventType ++ ":" ++ f

/-- Minimal user shape used for topic construction (name and object id). -/
structure UserLike where
  name : String
  objectId : String

/-- Modelled from the spec: `CommunicationTopic.createByLevels`
(`communication-topic.ts` is not in the sample) — builds a topic from its
fields. In readable mode the associated-user level is the sanitized user name,
an underscore, and the user's UUID. The message token is
`<senderObjectId>_<counter>`; a fresh sender (token state `none`) uses
counter 0 when an associated user is present and 1 otherwise, and subsequent
tokens increment the counter (spec sections 3 and 4.1, pinned by the topic
tests). Returns the topic and the sender's next token state. -/
def CommunicationTopic.createByLevels (associatedUser : Option UserLike)
    (senderId : String) (eventType : CommunicationEventType)
    (eventTypeFilter : Option String) (tokenState : Option Nat)
    (version : Nat) (isReadable : Bool) : CommunicationTopic × Option Nat :=
  let counter :=
    match tokenState with
    | none => if associatedUser.isSome then 0 else 1
    | some c => c
  let token := senderId ++ "_" ++ String.mk (natToChars counter)
  let userLevel := associatedUser.map (fun u =>
    if isReadable then sanitize u.name ++ "_" ++ u.objectId else u.objectId)
  (⟨userLevel, senderId, eventType, eventTypeFilter, token, version⟩,
   some (counter + 1))

/-- Modelled from the spec: `CommunicationTopic.getTopicName` — the wire
string `/coaty/<version>/<eventTypeName>/<associatedUserId|->/<sourceId>/<messageToken>/`
(spec section 4.1, pinned by the topic-filter tests' level layout). -/
def CommunicationTopic.getTopicName (t : CommunicationTopic) : String :=
  String.mk (joinLevels
    [[], PROTOCOL_NAME.toList, natToChars t.version,
     t.eventTypeName.toList, (t.associatedUserId.getD "-").toList,
     t.sourceObjectId.toList, t.messageToken.toList, []])

/-- Parsing the list of topic levels back into a topic: requires the exact
eight-level layout with empty first and last levels, the protocol name, an
integer version, a known event kind, UUID-shaped user and source levels
(`-` meaning no associated user) and a non-empty message token. -/
def parseTopicLevels : List (List Char) → Option CommunicationTopic
  | [fst, p, v, e, u, src, tok, lst] =>
    if fst.isEmpty && lst.isEmpty && (String.mk p == PROTOCOL_NAME) &&
        !tok.isEmpty then
      (charsToNat v).bind fun ver =>
        (eventKindFromName (String.mk (breakColon e).1)).bind fun k =>
          if (uuidFromLevel (String.mk src)).isSome then
            if String.mk u == "-" then
              some ⟨none, String.mk src, k, ((breakColon e).2).map String.mk,
                    String.mk tok, ver⟩
            else if (uuidFromLevel (String.mk u)).isSome then
              some ⟨some (String.mk u), String.mk src, k,
                    ((breakColon e).2).map String.mk, String.mk tok, ver⟩
            else none
          else none
    else none
  | _ => none

/-- Modelled from the spec: `CommunicationTopic.createByName`
(`communication-topic.ts` is not in the sample) — decodes a wire topic
string, failing on any ill-structured topic (spec section 4.1, pinned by the
topic tests). -/
def CommunicationTopic.createByName (topicName : String) :
    Option CommunicationTopic :=
  parseTopicLevels (splitLevels topicName.toList)

/-- The communication manager's operating states (`OperatingState` of
`communication-manager.ts`, names as used by `container.ts`). -/
inductive OperatingState where
  | initial | starting | started | stopping | stopped
deriving DecidableEq, Repr

/-- The controller lifecycle callbacks invoked by the container. -/
inductive LifecycleCall where
  | onInit
  | onContainerResolved
  | onCommunicationManagerStarting
  | onCommunicationManagerStopping
  | onDispose
deriving DecidableEq, Repr

/-- `Container._dispatchOperatingState` of `container.ts`: an emitted
operating state is forwarded to every registered controller — `Starting`
as `onCommunicationManagerStarting`, `Stopping` as
`onCommunicationManagerStopping`, every other state is ignored. -/
def dispatchOperatingState (controllers : List String) (s : OperatingState) :
    List (String × LifecycleCall) :=
  match s with
  | .starting => controllers.map (fun c => (c, .onCommunicationManagerStarting))
  | .stopping => controllers.map (fun c => (c, .onCommunicationManagerStopping))
  | _ => []

/-- The callback trace of `Container._resolveComponents` of `container.ts`:
each controller is constructed and receives `onInit` (in registration order),
then every controller receives `onContainerResolved`, then the container
subscribes to the operating state (a behavior stream that first replays the
current `Initial` state) and finally starts the communication manager when
`shouldAutoStart` is set. Modelled from the spec: starting the manager emits
`Starting` and then `Started` on the operating-state stream (spec section
4.6; `communication-manager.ts` is not in the sample). -/
def containerResolveTrace (controllers : List String) (autoStart : Bool) :
    List (String × LifecycleCall) :=
  controllers.map (fun c => (c, .onInit))
    ++ controllers.map (fun c => (c, .onContainerResolved))
    ++ dispatchOperatingState controllers .initial
    ++ (if autoStart then
          dispatchOperatingState controllers .starting
            ++ dispatchOperatingState controllers .started
        else [])

/-- The callback trace of `Container.shutdown`/`_releaseComponents` of
`container.ts`: the communication manager is disposed first — modelled from
the spec, disposal emits `Stopping` and then `Stopped` on the still-subscribed
operating-state stream (spec section 4.6) — and only then does every
controller receive `onDispose`. -/
def containerShutdownTrace (controllers : List String) :
    List (String × LifecycleCall) :=
  dispatchOperatingState controllers .stopping
    ++ dispatchOperatingState controllers .stopped
    ++ controllers.map (fun c => (c, .onDispose))

/-- The full controller-callback trace of a container that is resolved and
later shut down. -/
def containerLifecycleTrace (controllers : List String) (autoStart : Bool) :
    List (String × LifecycleCall) :=
  containerResolveTrace controllers autoStart ++ containerShutdownTrace controllers

/-- `Container.getController` of `container.ts`:
`this._controllers && this._controllers.get(controllerName)[0]`. After
shutdown the registry is `undefined` and the conjunction short-circuits to
`undefined` (`Except.ok none`); otherwise a missing map entry makes the
`[0]` index access throw a `TypeError` (`Except.error`), and a present entry
yields the registered controller instance. -/
def Container.getController {α : Type} (controllers : Option (List (String × α)))
    (controllerName : String) : Except Unit (Option α) :=
  match controllers with
  | none => .ok none
  | some m =>
    match m.lookup controllerName with
    | none => .error ()
    | some ctrl => .ok (some ctrl)

/-- A Call event (`CallEvent` of `call-return.ts`): operation name plus
event data. -/
structure CallEvent where
  operation : String
  eventData : CallEventData

/-- The `CallEvent` constructor of `call-return.ts`: throws (`none`) unless
`CommunicationTopic.isValidEventTypeFilter` accepts the operation name. -/
def CallEvent.construct (operation : String) (d : CallEventData) :
    Option CallEvent :=
  if isValidEventTypeFilter operation then some ⟨operation, d⟩ else none

/-- Modelled from the spec: the `ChannelEvent` constructor
(`channel.ts` is not in the sample) validates the channel identifier with
the same `isValidEventTypeFilter` check, as pinned by the channel-event
tests (spec sections 4.1 and 4.2). -/
structure ChannelEvent where
  channelId : String

/-- Modelled from the spec: `ChannelEvent` construction throws (`none`) on
an invalid channel identifier. -/
def ChannelEvent.construct (channelId : String) : Option ChannelEvent :=
  if isValidEventTypeFilter channelId then some ⟨channelId⟩ else none

theorem string_toList_eq_nil_iff (s : String) : s.toList = [] ↔ s = "" :=
  ⟨fun h => String.ext h, fun h => by subst h; rfl⟩

theorem filter_map_pair_not_mem (l : List String) (call : LifecycleCall)
    (c : String) (h : c ∉ l) :
    (l.map (fun x => (x, call))).filter (fun p => p.1 == c) = [] := by
  induction l with
  | nil => rfl
  | cons a l ih =>
    have ha : (a == c) = false := by
      simp only [beq_eq_false_iff_ne]
      intro hac
      exact h (hac ▸ List.mem_cons_self a l)
    simp only [List.map_cons, List.filter_cons, ha]
    exact ih (fun hx => h (List.mem_cons_of_mem _ hx))

theorem filter_map_pair_mem (l : List String) (call : LifecycleCall)
    (c : String) (hnd : l.Nodup) (hmem : c ∈ l) :
    (l.map (fun x => (x, call))).filter (fun p => p.1 == c) = [(c, call)] := by
  induction l with
  | nil => cases hmem
  | cons a l ih =>
    rcases List.nodup_cons.mp hnd with ⟨hal, hl⟩
    rcases List.mem_cons.mp hmem with hca | hcl
    · subst hca
      simp only [List.map_cons, List.filter_cons, beq_self_eq_true, if_true]
      rw [filter_map_pair_not_mem l call c hal]
    · have ha : (a == c) = false := by
        simp only [beq_eq_false_iff_ne]
        intro hac
        exact hal (hac ▸ hcl)
      simp only [List.map_cons, List.filter_cons, ha]
      exact ih hl hcl

/-- Claim C2: constructing `ReturnEventData` with both `result` and `error`
given, or with neither given, raises `InvalidPayload` (surfaced as a
`TypeError`): construction fails. -/
theorem claim_C2_return_exactly_one (result error executionInfo : Option Json)
    (h : (result ≠ none ∧ error ≠ none) ∨ (result = none ∧ error = none)) :
    ReturnEventData.construct result error executionInfo = none := by
  rcases h with ⟨hr, he⟩ | ⟨hr, he⟩
  · rcases result with _ | r
    · exact absurd rfl hr
    rcases error with _ | e
    · exact absurd rfl he
    simp [ReturnEventData.construct, ReturnEventData.hasValidParameters]
  · subst hr; subst he
    simp [ReturnEventData.construct, ReturnEventData.hasValidParameters]

theorem claim_C2_witness :
    ReturnEventData.construct (some (Json.num 1))
        (some (Json.obj [("code", Json.num 1), ("message", Json.str "m")])) none
      = none
    ∧ ReturnEventData.construct none none none = none :=
  ⟨claim_C2_return_exactly_one _ _ none (Or.inl ⟨by simp, by simp⟩),
   claim_C2_return_exactly_one none none none (Or.inr ⟨rfl, rfl⟩)⟩

theorem claim_C3_counterexample :
    ReturnEventData.construct none
        (some (Json.obj [("code", Json.str "not-an-integer"), ("message", Json.num 7)]))
        none
      = some ⟨none,
              some (Json.obj [("code", Json.str "not-an-integer"), ("message", Json.num 7)]),
              none⟩
    ∧ jsTypeof (Json.str "not-an-integer") ≠ "number"
    ∧ jsTypeof (Json.num 7) ≠ "string" :=
  ⟨rfl, by decide, by decide⟩

/-- Claim C3 (amended): whenever constructing `ReturnEventData` with an error
succeeds, the error is a non-null value of JavaScript type "object" whose
`code` and `message` properties are both defined; the constructor does not
check that `code` is an integer nor that `message` is a string. -/
theorem claim_C3_amended (result executionInfo : Option Json) (e : Json)
    (d : ReturnEventData)
    (h : ReturnEventData.construct result (some e) executionInfo = some d) :
    jsTypeof e = "object" ∧ e ≠ Json.null ∧
      (∃ code, jsGetProp e "code" = .ok (some code)) ∧
      (∃ msg, jsGetProp e "message" = .ok (some msg)) := by
  cases e with
  | null =>
    rcases result with _ | r <;>
      simp [ReturnEventData.construct, ReturnEventData.hasValidParameters,
        jsTypeof, jsGetProp] at h
  | bool b =>
    rcases result with _ | r <;>
      simp [ReturnEventData.construct, ReturnEventData.hasValidParameters,
        jsTypeof] at h
  | num n =>
    rcases result with _ | r <;>
      simp [ReturnEventData.construct, ReturnEventData.hasValidParameters,
        jsTypeof] at h
  | str s =>
    rcases result with _ | r <;>
      simp [ReturnEventData.construct, ReturnEventData.hasValidParameters,
        jsTypeof] at h
  | arr xs =>
    rcases result with _ | r <;>
      simp [ReturnEventData.construct, ReturnEventData.hasValidParameters,
        jsTypeof, jsGetProp] at h
  | obj fs =>
    rcases result with _ | r
    · rcases hc : fs.lookup "code" with _ | code
      · simp [ReturnEventData.construct, ReturnEventData.hasValidParameters,
          jsTypeof, jsGetProp, hc] at h
      · rcases hm : fs.lookup "message" with _ | msg
        · simp [ReturnEventData.construct, ReturnEventData.hasValidParameters,
            jsTypeof, jsGetProp, hc, hm] at h
        · refine ⟨rfl, fun hx => Json.noConfusion hx, ⟨code, ?_⟩, ⟨msg, ?_⟩⟩ <;>
            simp [jsGetProp, hc, hm]
    · simp [ReturnEventData.construct, ReturnEventData.hasValidParameters] at h

theorem claim_C3_witness :
    jsTypeof (Json.obj [("code", Json.num 1), ("message", Json.str "m")]) = "object"
    ∧ Json.obj [("code", Json.num 1), ("message", Json.str "m")] ≠ Json.null
    ∧ (∃ code, jsGetProp (Json.obj [("code", Json.num 1), ("message", Json.str "m")]) "code"
        = .ok (some code))
    ∧ (∃ msg, jsGetProp (Json.obj [("code", Json.num 1), ("message", Json.str "m")]) "message"
        = .ok (some msg)) :=
  claim_C3_amended none none _ _ rfl

/-- Claim C4: `CallEventData.matchesFilter` returns `false` iff a context
filter was specified in the event data, a context object is supplied, and the
object does not satisfy the filter (per the object matcher); in every other
case it returns `true` — in particular a Call carrying a context filter is
not dropped by a receiver that supplies no context object. -/
theorem claim_C4_matches_filter :
    (∀ (matcher : Json → Json → Bool) (d : CallEventData) (context : Option Json),
        CallEventData.matchesFilter matcher d context = false ↔
          ∃ f c, d.filter = some f ∧ context = some c ∧ matcher c f = false)
    ∧ ∀ (matcher : Json → Json → Bool) (d : CallEventData),
        CallEventData.matchesFilter matcher d none = true := by
  constructor
  · intro matcher d context
    rcases d with ⟨p, f⟩
    rcases f with _ | f <;> rcases context with _ | c <;>
      simp [CallEventData.matchesFilter]
  · intro matcher d
    rcases d with ⟨p, f⟩
    rcases f with _ | f <;> simp [CallEventData.matchesFilter]

theorem claim_C5_counterexample :
    CallEventData.construct isContextFilterValid (some Json.null) none
        = some ⟨some Json.null, none⟩
    ∧ some Json.null ≠ (none : Option Json)
    ∧ isJsArray Json.null = false
    ∧ ∀ fs, Json.null ≠ Json.obj fs := by
  refine ⟨rfl, by simp, rfl, ?_⟩
  intro fs h
  exact Json.noConfusion h

/-- Claim C5 (amended): constructing `CallEventData` succeeds iff the
parameters argument is `undefined`, a JSON array, or any value of JavaScript
type "object" — which includes `null` in addition to by-name mapping
objects — and the optional context filter is valid; numbers, strings and
booleans raise `InvalidPayload` as a `TypeError` at construction. -/
theorem claim_C5_amended (cfv : Option Json → Bool) (p f : Option Json) :
    (CallEventData.construct cfv p f).isSome = true ↔
      ((p = none ∨ (∃ xs, p = some (Json.arr xs)) ∨
          (∃ v, p = some v ∧ jsTypeof v = "object")) ∧ cfv f = true) := by
  rcases p with _ | v
  · simp [CallEventData.construct, paramsShapeOk]
  · cases v <;>
      simp [CallEventData.construct, paramsShapeOk, isJsArray, jsTypeof]

/-- Claim C7: for every successfully constructed `CallEventData` and
`ReturnEventData`, `createFrom (e.toJsonObject()).toJsonObject()` equals
`e.toJsonObject()` — the JSON round-trip law for the Call and Return event
data kinds. -/
theorem claim_C7_json_roundtrip :
    (∀ (cfv : Option Json → Bool) (p f : Option Json) (d : CallEventData),
        CallEventData.construct cfv p f = some d →
          (CallEventData.createFrom cfv d.toJsonObject).map CallEventData.toJsonObject
            = some d.toJsonObject)
    ∧ ∀ (r e i : Option Json) (d : ReturnEventData),
        ReturnEventData.construct r e i = some d →
          (ReturnEventData.createFrom d.toJsonObject).map ReturnEventData.toJsonObject
            = some d.toJsonObject := by
  constructor
  · intro cfv p f d h
    rcases hcond : paramsShapeOk p && cfv f with _ | _ <;>
      simp [CallEventData.construct, hcond] at h
    subst h
    simp [CallEventData.createFrom, CallEventData.construct,
      CallEventData.toJsonObject, hcond]
  · intro r e i d h
    rcases hv : ReturnEventData.hasValidParameters r e with u | b
    · simp [ReturnEventData.construct, hv] at h
    · rcases b with _ | _ <;> simp [ReturnEventData.construct, hv] at h
      subst h
      simp [ReturnEventData.createFrom, ReturnEventData.construct,
        ReturnEventData.toJsonObject, hv]

theorem claim_C7_witness :
    ((CallEventData.createFrom isContextFilterValid
        (CallEventData.toJsonObject ⟨some (Json.arr []), none⟩)).map
          CallEventData.toJsonObject
      = some (CallEventData.toJsonObject ⟨some (Json.arr []), none⟩))
    ∧ ((ReturnEventData.createFrom
        (ReturnEventData.toJsonObject
          ⟨some (Json.num 85), none, some (Json.num 4712)⟩)).map
          ReturnEventData.toJsonObject
      = some (ReturnEventData.toJsonObject
          ⟨some (Json.num 85), none, some (Json.num 4712)⟩)) :=
  ⟨claim_C7_json_roundtrip.1 isContextFilterValid (some (Json.arr [])) none _ rfl,
   claim_C7_json_roundtrip.2 (some (Json.num 85)) none (some (Json.num 4712)) _ rfl⟩

/-- Claim C9: every controller registered in a container sees exactly the
lifecycle callback sequence `onInit`, `onContainerResolved`,
`onCommunicationManagerStarting` (when the manager enters Starting),
`onCommunicationManagerStopping` (when it enters Stopping on shutdown, the
communication manager being disposed before the controllers), `onDispose` —
in that order and no other. -/
theorem claim_C9_lifecycle_order (controllers : List String) (c : String)
    (hnd : controllers.Nodup) (hmem : c ∈ controllers) :
    ((containerLifecycleTrace controllers true).filter (fun p => p.1 == c)).map
        Prod.snd
      = [.onInit, .onContainerResolved, .onCommunicationManagerStarting,
         .onCommunicationManagerStopping, .onDispose] := by
  simp only [containerLifecycleTrace, containerResolveTrace,
    containerShutdownTrace, dispatchOperatingState, if_true,
    List.append_assoc, List.filter_append, List.append_nil, List.nil_append,
    List.filter_nil]
  rw [filter_map_pair_mem controllers _ c hnd hmem,
    filter_map_pair_mem controllers _ c hnd hmem,
    filter_map_pair_mem controllers _ c hnd hmem,
    filter_map_pair_mem controllers _ c hnd hmem,
    filter_map_pair_mem controllers _ c hnd hmem]
  rfl

theorem claim_C9_witness :
    (List.Nodup ["MockDeviceController", "MockObjectController"]
      ∧ "MockDeviceController" ∈ ["MockDeviceController", "MockObjectController"])
    ∧ ((containerLifecycleTrace ["MockDeviceController", "MockObjectController"]
          true).filter (fun p => p.1 == "MockDeviceController")).map Prod.snd
      = [.onInit, .onContainerResolved, .onCommunicationManagerStarting,
         .onCommunicationManagerStopping, .onDispose] :=
  ⟨⟨by decide, by decide⟩,
   claim_C9_lifecycle_order _ _ (by decide) (by decide)⟩

/-- Claim C10: `Container.getController` returns the registered controller
instance whenever one is registered under the name and the container has not
been shut down; for a name with no registered controller the lookup indexes
an absent map entry, so the call throws (`Except.error`) rather than
returning `undefined`. -/
theorem claim_C10_get_controller {α : Type} (m : List (String × α))
    (name : String) :
    (∀ ctrl, m.lookup name = some ctrl →
        Container.getController (some m) name = .ok (some ctrl))
    ∧ (m.lookup name = none →
        Container.getController (some m) name = .error ()) := by
  constructor
  · intro ctrl h
    simp [Container.getController, h]
  · intro h
    simp [Container.getController, h]

theorem claim_C10_witness :
    Container.getController (some [("MockObjectController", 1)])
        "MockObjectController" = .ok (some 1)
    ∧ Container.getController (some [("MockObjectController", 1)]) "Missing"
        = .error () :=
  ⟨(claim_C10_get_controller _ _).1 1 rfl,
   (claim_C10_get_controller _ _).2 rfl⟩

theorem isValidEventTypeFilter_iff (s : String) :
    isValidEventTypeFilter s = true ↔
      s ≠ "" ∧ ∀ c ∈ s.toList, c ≠ '\x00' ∧ c ≠ '#' ∧ c ≠ '+' ∧ c ≠ '/' := by
  rw [isValidEventTypeFilter, Bool.and_eq_true]
  constructor
  · rintro ⟨h1, h2⟩
    constructor
    · intro hs
      subst hs
      exact absurd h1 (by decide)
    · intro c hc
      have h3 := List.all_eq_true.mp h2 c hc
      rw [Bool.not_eq_true', isUnsafeTopicChar] at h3
      simp only [Bool.or_eq_false_iff, beq_eq_false_iff_ne] at h3
      tauto
  · rintro ⟨hs, hchars⟩
    constructor
    · have hnil : s.toList ≠ [] := fun h => hs ((string_toList_eq_nil_iff s).mp h)
      rcases hsl : s.toList with _ | ⟨a, l⟩
      · exact absurd hsl hnil
      · rfl
    · refine List.all_eq_true.mpr fun c hc => ?_
      rw [Bool.not_eq_true', isUnsafeTopicChar]
      simp only [Bool.or_eq_false_iff, beq_eq_false_iff_ne]
      have := hchars c hc
      tauto

/-- Claim C6: constructing a `CallEvent` raises iff its operation name is
empty or contains one of `NUL`, `#`, `+`, `/`; constructing a `ChannelEvent`
raises under the same condition on its channel identifier; every non-empty
name containing none of these characters is accepted. -/
theorem claim_C6_operation_channel_validation (s : String) (d : CallEventData) :
    ((CallEvent.construct s d).isSome = true ↔
        s ≠ "" ∧ ∀ c ∈ s.toList, c ≠ '\x00' ∧ c ≠ '#' ∧ c ≠ '+' ∧ c ≠ '/')
    ∧ ((ChannelEvent.construct s).isSome = true ↔
        s ≠ "" ∧ ∀ c ∈ s.toList, c ≠ '\x00' ∧ c ≠ '#' ∧ c ≠ '+' ∧ c ≠ '/') := by
  constructor
  · rw [← isValidEventTypeFilter_iff]
    rcases hv : isValidEventTypeFilter s with _ | _ <;>
      simp [CallEvent.construct, hv]
  · rw [← isValidEventTypeFilter_iff]
    rcases hv : isValidEventTypeFilter s with _ | _ <;>
      simp [ChannelEvent.construct, hv]

/-- Claim C8: a fresh sender's first message token uses counter 0 when an
associated user is present and counter 1 otherwise — the first topic built
with a user carries token `<senderId>_0`, the first built without one
carries `<senderId>_1` — and every subsequent token increments the stored
counter. -/
theorem claim_C8_token_counter (senderId : String) (u : UserLike)
    (k : CommunicationEventType) (suffix : Option String) (version : Nat)
    (readable : Bool) (user : Option UserLike) (c : Nat) :
    ((CommunicationTopic.createByLevels (some u) senderId k suffix none
        version readable).1.messageToken = senderId ++ "_0")
    ∧ ((CommunicationTopic.createByLevels none senderId k suffix none
        version readable).1.messageToken = senderId ++ "_1")
    ∧ ((CommunicationTopic.createByLevels (some u) senderId k suffix none
        version readable).2 = some 1)
    ∧ ((CommunicationTopic.createByLevels none senderId k suffix none
        version readable).2 = some 2)
    ∧ ((CommunicationTopic.createByLevels user senderId k suffix (some c)
        version readable).1.messageToken
          = senderId ++ "_" ++ String.mk (natToChars c))
    ∧ ((CommunicationTopic.createByLevels user senderId k suffix (some c)
        version readable).2 = some (c + 1)) := by
  refine ⟨?_, ?_, rfl, rfl, rfl, rfl⟩
  · show senderId ++ "_" ++ String.mk (natToChars 0) = senderId ++ "_0"
    rw [String.append_assoc]
    rfl
  · show senderId ++ "_" ++ String.mk (natToChars 1) = senderId ++ "_1"
    rw [String.append_assoc]
    rfl

theorem string_mk_toList (s : String) : String.mk s.toList = s := rfl

theorem string_toList_append (a b : String) :
    (a ++ b).toList = a.toList ++ b.toList := String.data_append a b

theorem splitLevels_no_slash (l : List Char) (h : '/' ∉ l) :
    splitLevels l = [l] := by
  induction l with
  | nil => rfl
  | cons c cs ih =>
    have hc : c ≠ '/' := fun hx => h (hx ▸ List.mem_cons_self c cs)
    have hcs : '/' ∉ cs := fun hx => h (List.mem_cons_of_mem _ hx)
    simp [splitLevels, if_neg hc, ih hcs]

theorem splitLevels_append (l rest : List Char) (h : '/' ∉ l) :
    splitLevels (l ++ '/' :: rest) = l :: splitLevels rest := by
  induction l with
  | nil => simp [splitLevels]
  | cons c cs ih =>
    have hc : c ≠ '/' := fun hx => h (hx ▸ List.mem_cons_self c cs)
    have hcs : '/' ∉ cs := fun hx => h (List.mem_cons_of_mem _ hx)
    simp only [List.cons_append, splitLevels, List.append_eq, if_neg hc, ih hcs]

theorem splitLevels_joinLevels (ls : List (List Char)) (hne : ls ≠ [])
    (h : ∀ l ∈ ls, '/' ∉ l) : splitLevels (joinLevels ls) = ls := by
  induction ls with
  | nil => exact absurd rfl hne
  | cons l ls ih =>
    rcases ls with _ | ⟨l2, ls'⟩
    · exact splitLevels_no_slash l (h l (List.mem_cons_self _ _))
    · rw [show joinLevels (l :: l2 :: ls') = l ++ '/' :: joinLevels (l2 :: ls')
        from rfl]
      rw [splitLevels_append l _ (h l (List.mem_cons_self _ _))]
      rw [ih (by simp) (fun x hx => h x (List.mem_cons_of_mem _ hx))]

theorem digitChar_isDigit (n : Nat) : isDigitChar (digitChar n) = true := by
  rcases n with _|_|_|_|_|_|_|_|_|_|n
  any_goals decide
  show isDigitChar '0' = true
  decide

theorem digitChar_val (n : Nat) (h : n < 10) : charVal (digitChar n) = n := by
  interval_cases n <;> decide

theorem isDigitChar_ne_slash (c : Char) (h : isDigitChar c = true) : c ≠ '/' := by
  intro hx
  subst hx
  exact absurd h (by decide)

theorem natToCharsAux_spec (fuel : Nat) : ∀ n, n < fuel →
    natToCharsAux fuel n ≠ [] ∧
    (∀ c ∈ natToCharsAux fuel n, isDigitChar c = true) ∧
    digitsVal (natToCharsAux fuel n) = n := by
  induction fuel with
  | zero => exact fun n hn => absurd hn (Nat.not_lt_zero n)
  | succ f ih =>
    intro n hn
    by_cases h10 : n < 10
    · simp only [natToCharsAux, if_pos h10]
      refine ⟨by simp, ?_, ?_⟩
      · intro c hc
        rcases List.mem_singleton.mp hc with rfl
        exact digitChar_isDigit n
      · simp only [digitsVal, List.foldl_cons, List.foldl_nil, Nat.zero_mul,
          Nat.zero_add]
        exact digitChar_val n h10
    · have hpos : 0 < n := by omega
      have hdiv : n / 10 < f := by
        have h1 : n / 10 < n := Nat.div_lt_self hpos (by norm_num)
        omega
      obtain ⟨hne, hdig, hval⟩ := ih (n / 10) hdiv
      simp only [natToCharsAux, if_neg h10]
      refine ⟨by simp, ?_, ?_⟩
      · intro c hc
        rcases List.mem_append.mp hc with hc | hc
        · exact hdig c hc
        · rcases List.mem_singleton.mp hc with rfl
          exact digitChar_isDigit (n % 10)
      · rw [digitsVal, List.foldl_append]
        simp only [List.foldl_cons, List.foldl_nil]
        show digitsVal (natToCharsAux f (n / 10)) * 10 +
          charVal (digitChar (n % 10)) = n
        rw [hval, digitChar_val _ (Nat.mod_lt n (by norm_num))]
        omega

theorem natToChars_spec (n : Nat) :
    natToChars n ≠ [] ∧ (∀ c ∈ natToChars n, isDigitChar c = true) ∧
    digitsVal (natToChars n) = n :=
  natToCharsAux_spec (n + 1) n (Nat.lt_succ_self n)

theorem charsToNat_natToChars (n : Nat) : charsToNat (natToChars n) = some n := by
  obtain ⟨hne, hdig, hval⟩ := natToChars_spec n
  have h1 : (natToChars n).isEmpty = false := by
    rcases h : natToChars n with _ | ⟨a, l⟩
    · exact absurd h hne
    · rfl
  have h2 : (natToChars n).all isDigitChar = true := List.all_eq_true.mpr hdig
  simp [charsToNat, h1, h2, hval]

theorem natToChars_no_slash (n : Nat) : '/' ∉ natToChars n := fun hx =>
  isDigitChar_ne_slash '/' ((natToChars_spec n).2.1 '/' hx) rfl

theorem breakColon_no_colon (l : List Char) (h : ':' ∉ l) :
    breakColon l = (l, none) := by
  induction l with
  | nil => rfl
  | cons c cs ih =>
    have hc : c ≠ ':' := fun hx => h (hx ▸ List.mem_cons_self c cs)
    have hcs : ':' ∉ cs := fun hx => h (List.mem_cons_of_mem _ hx)
    simp [breakColon, if_neg hc, ih hcs]

theorem breakColon_append (l rest : List Char) (h : ':' ∉ l) :
    breakColon (l ++ ':' :: rest) = (l, some rest) := by
  induction l with
  | nil => simp [breakColon]
  | cons c cs ih =>
    have hc : c ≠ ':' := fun hx => h (hx ▸ List.mem_cons_self c cs)
    have hcs : ':' ∉ cs := fun hx => h (List.mem_cons_of_mem _ hx)
    simp only [List.cons_append, breakColon, List.append_eq, if_neg hc, ih hcs]

theorem eventKindFromName_base (k : CommunicationEventType) :
    eventKindFromName (eventTypeBaseName k) = some k := by
  cases k <;> rfl

theorem eventTypeBaseName_no_colon (k : CommunicationEventType) :
    ':' ∉ (eventTypeBaseName k).toList := by
  cases k <;> decide

theorem eventTypeBaseName_no_slash (k : CommunicationEventType) :
    '/' ∉ (eventTypeBaseName k).toList := by
  cases k <;> decide

theorem checkUuidGroups_mem (ns : List Nat) : ∀ cs : List Char,
    checkUuidGroups ns cs = true → ∀ c ∈ cs, isHexChar c = true ∨ c = '-' := by
  induction ns with
  | nil =>
    intro cs h c hc
    rcases cs with _ | ⟨a, l⟩
    · cases hc
    · exact absurd h (by simp [checkUuidGroups])
  | cons n ns ih =>
    rcases ns with _ | ⟨m, ns'⟩
    · intro cs h c hc
      simp only [checkUuidGroups, Bool.and_eq_true] at h
      exact Or.inl (List.all_eq_true.mp h.2 c hc)
    · intro cs h c hc
      simp only [checkUuidGroups, Bool.and_eq_true] at h
      obtain ⟨⟨⟨hlen, hhex⟩, hhead⟩, hrest⟩ := h
      rw [← List.take_append_drop n cs] at hc
      rcases List.mem_append.mp hc with hc | hc
      · exact Or.inl (List.all_eq_true.mp hhex c hc)
      · rcases hdrop : cs.drop n with _ | ⟨d, rest⟩
        · rw [hdrop] at hc
          cases hc
        · rw [hdrop] at hc hhead hrest
          have hd : d = '-' := by
            simpa using hhead
          rcases List.mem_cons.mp hc with hc | hc
          · exact Or.inr (hc.trans hd)
          · exact ih rest (by simpa using hrest) c hc

def groupsLen : List Nat → Nat
  | [] => 0
  | [n] => n
  | n :: ns => n + 1 + groupsLen ns

theorem checkUuidGroups_length (ns : List Nat) : ∀ cs : List Char,
    checkUuidGroups ns cs = true → cs.length = groupsLen ns := by
  induction ns with
  | nil =>
    intro cs h
    rcases cs with _ | ⟨a, l⟩
    · rfl
    · exact absurd h (by simp [checkUuidGroups])
  | cons n ns ih =>
    rcases ns with _ | ⟨m, ns'⟩
    · intro cs h
      simp only [checkUuidGroups, Bool.and_eq_true] at h
      have h1 : cs.length = n := by simpa using h.1
      simpa [groupsLen] using h1
    · intro cs h
      simp only [checkUuidGroups, Bool.and_eq_true] at h
      obtain ⟨⟨⟨hlen, hhex⟩, hhead⟩, hrest⟩ := h
      have hlen' : (cs.take n).length = n := by simpa using hlen
      rcases hdrop : cs.drop n with _ | ⟨d, rest⟩
      · rw [hdrop] at hhead
        exact absurd hhead (by decide)
      · rw [hdrop] at hrest
        have hr := ih rest (by simpa using hrest)
        have hcs : cs.length = (cs.take n).length + (cs.drop n).length := by
          rw [← List.length_append, List.take_append_drop]
        rw [hdrop] at hcs
        simp only [List.length_cons] at hcs
        rw [hcs, hlen', hr]
        rw [show groupsLen (n :: m :: ns') = n + 1 + groupsLen (m :: ns')
          from rfl]
        omega

theorem isUuidChars_length (cs : List Char) (h : isUuidChars cs = true) :
    cs.length = 36 := by
  rw [checkUuidGroups_length uuidShape cs h]
  rfl

theorem isUuidChars_no_slash (cs : List Char) (h : isUuidChars cs = true) :
    '/' ∉ cs := by
  intro hx
  rcases checkUuidGroups_mem uuidShape cs h '/' hx with hhex | hdash
  · exact absurd hhex (by decide)
  · exact absurd hdash (by decide)

theorem isUuidString_no_slash (s : String) (h : isUuidString s = true) :
    '/' ∉ s.toList := isUuidChars_no_slash s.toList h

theorem uuid_ne_dash (s : String) (h : isUuidString s = true) : s ≠ "-" := by
  intro hx
  subst hx
  exact absurd h (by decide)

theorem prefix_uuid_ne_dash (pre s : String) (h : isUuidString s = true) :
    pre ++ s ≠ "-" := by
  intro hx
  have hlen : (pre ++ s).toList.length = ("-" : String).toList.length :=
    congrArg (fun t => t.toList.length) hx
  rw [string_toList_append, List.length_append, isUuidChars_length _ h] at hlen
  simp at hlen

theorem uuidFromLevel_isSome_self (s : String) (h : isUuidString s = true) :
    (uuidFromLevel s).isSome = true := by
  rw [uuidFromLevel, if_pos (show isUuidChars s.toList = true from h)]
  rfl

theorem uuidFromLevel_isSome_trailing (pre s : String)
    (h : isUuidString s = true) : (uuidFromLevel (pre ++ s)).isSome = true := by
  rw [uuidFromLevel]
  by_cases h1 : isUuidChars (pre ++ s).toList = true
  · rw [if_pos h1]
    rfl
  · rw [if_neg h1]
    have hslen : s.toList.length = 36 := isUuidChars_length s.toList h
    have hlen : 36 ≤ (pre ++ s).toList.length := by
      rw [string_toList_append, List.length_append, hslen]
      omega
    rw [if_pos hlen]
    have hdrop : (pre ++ s).toList.drop ((pre ++ s).toList.length - 36)
        = s.toList := by
      rw [string_toList_append, List.length_append, hslen,
        show pre.toList.length + 36 - 36 = pre.toList.length by omega,
        List.drop_left]
    rw [hdrop, if_pos (show isUuidChars s.toList = true from h)]
    rfl

theorem list_map_eq_self {α : Type} (f : α → α) (l : List α) :
    l.map f = l ↔ ∀ x ∈ l, f x = x := by
  induction l with
  | nil => simp
  | cons a l ih =>
    simp only [List.map_cons, List.cons.injEq, List.mem_cons]
    constructor
    · rintro ⟨ha, hl⟩
      intro x hx
      rcases hx with rfl | hx
      · exact ha
      · exact (ih.mp hl) x hx
    · intro h
      exact ⟨h a (Or.inl rfl), ih.mpr fun x hx => h x (Or.inr hx)⟩

theorem sanitize_no_slash (s : String) : '/' ∉ (sanitize s).toList := by
  intro hx
  rcases List.mem_map.mp hx with ⟨c, hc, hfc⟩
  by_cases hu : isUnsafeTopicChar c = true
  · rw [if_pos hu] at hfc
    exact absurd hfc (by decide)
  · rw [if_neg hu] at hfc
    subst hfc
    exact hu (by decide)

theorem sanitize_eq_self_iff (s : String) :
    sanitize s = s ↔ ∀ c ∈ s.toList, isUnsafeTopicChar c = false := by
  constructor
  · intro h c hc
    have hl : s.toList.map (fun c => if isUnsafeTopicChar c then '_' else c)
        = s.toList := congrArg String.toList h
    have hfc := (list_map_eq_self _ _).mp hl c hc
    by_cases hu : isUnsafeTopicChar c = true
    · rw [if_pos hu] at hfc
      subst hfc
      exact absurd hu (by decide)
    · exact Bool.not_eq_true _ ▸ hu
  · intro h
    apply String.ext
    show s.toList.map (fun c => if isUnsafeTopicChar c then '_' else c)
      = s.toList
    exact (list_map_eq_self _ _).mpr fun c hc => if_neg (by rw [h c hc]; simp)

theorem string_toList_mk (cs : List Char) : (String.mk cs).toList = cs := rfl

theorem breakColon_base_suffix (k : CommunicationEventType) (f : String) :
    breakColon (eventTypeBaseName k ++ ":" ++ f).toList
      = ((eventTypeBaseName k).toList, some f.toList) := by
  rw [string_toList_append, string_toList_append,
    show (":" : String).toList = [':'] from rfl,
    List.append_assoc, List.singleton_append]
  exact breakColon_append _ _ (eventTypeBaseName_no_colon k)

theorem createByName_getTopicName
    (userId : Option String) (src : String) (k : CommunicationEventType)
    (suffix : Option String) (tok : String) (ver : Nat)
    (hsrc : isUuidString src = true)
    (huser : ∀ lvl, userId = some lvl →
      (uuidFromLevel lvl).isSome = true ∧ '/' ∉ lvl.toList ∧ lvl ≠ "-")
    (hfilt : ∀ f, suffix = some f → '/' ∉ f.toList)
    (htokne : tok.toList ≠ []) (htoksl : '/' ∉ tok.toList) :
    CommunicationTopic.createByName
        (CommunicationTopic.getTopicName ⟨userId, src, k, suffix, tok, ver⟩)
      = some ⟨userId, src, k, suffix, tok, ver⟩ := by
  have htokE : tok.toList.isEmpty = false := by
    rcases h : tok.toList with _ | ⟨a, l⟩
    · exact absurd h htokne
    · rfl
  rcases suffix with _ | f
  all_goals rcases userId with _ | lvl
  · simp only [CommunicationTopic.createByName, CommunicationTopic.getTopicName,
      CommunicationTopic.eventTypeName, Option.getD_none, Option.getD_some,
      string_toList_mk]
    have hAll : ∀ l ∈ [([] : List Char), PROTOCOL_NAME.toList,
        natToChars ver, (eventTypeBaseName k).toList, ("-" : String).toList,
        src.toList, tok.toList, ([] : List Char)], '/' ∉ l := by
      intro l hl
      simp at hl
      rcases hl with rfl | rfl | rfl | rfl | rfl | rfl | rfl | rfl
      · simp
      · decide
      · exact natToChars_no_slash ver
      · exact eventTypeBaseName_no_slash k
      · decide
      · exact isUuidString_no_slash src hsrc
      · exact htoksl
      · simp
    rw [splitLevels_joinLevels _ (by simp) hAll]
    simp only [parseTopicLevels]
    rw [if_pos (by simp [string_mk_toList, htokE]; exact htokne)]
    rw [charsToNat_natToChars]
    rw [breakColon_no_colon _ (eventTypeBaseName_no_colon k)]
    simp only [Option.some_bind, string_mk_toList, eventKindFromName_base]
    rw [if_pos (uuidFromLevel_isSome_self src hsrc)]
    rw [if_pos (by decide : ((("-" : String)) == "-") = true)]
    simp [string_mk_toList]
  · -- no filter suffix, readable/plain user level present
    obtain ⟨hu1, hu2, hu3⟩ := huser lvl rfl
    simp only [CommunicationTopic.createByName, CommunicationTopic.getTopicName,
      CommunicationTopic.eventTypeName, Option.getD_none, Option.getD_some,
      string_toList_mk]
    have hAll : ∀ l ∈ [([] : List Char), PROTOCOL_NAME.toList,
        natToChars ver, (eventTypeBaseName k).toList, lvl.toList,
        src.toList, tok.toList, ([] : List Char)], '/' ∉ l := by
      intro l hl
      simp at hl
      rcases hl with rfl | rfl | rfl | rfl | rfl | rfl | rfl | rfl
      · simp
      · decide
      · exact natToChars_no_slash ver
      · exact eventTypeBaseName_no_slash k
      · exact hu2
      · exact isUuidString_no_slash src hsrc
      · exact htoksl
      · simp
    rw [splitLevels_joinLevels _ (by simp) hAll]
    simp only [parseTopicLevels]
    rw [if_pos (by simp [string_mk_toList, htokE]; exact htokne)]
    rw [charsToNat_natToChars]
    rw [breakColon_no_colon _ (eventTypeBaseName_no_colon k)]
    simp only [Option.some_bind, string_mk_toList, eventKindFromName_base]
    rw [if_pos (uuidFromLevel_isSome_self src hsrc)]
    rw [if_neg (by simpa using hu3)]
    rw [if_pos hu1]
    simp [string_mk_toList]
  · -- filter suffix present, no user
    have hf' : '/' ∉ f.toList := hfilt f rfl
    simp only [CommunicationTopic.createByName, CommunicationTopic.getTopicName,
      CommunicationTopic.eventTypeName, Option.getD_none, Option.getD_some,
      string_toList_mk]
    have hAll : ∀ l ∈ [([] : List Char), PROTOCOL_NAME.toList,
        natToChars ver, (eventTypeBaseName k ++ ":" ++ f).toList,
        ("-" : String).toList, src.toList, tok.toList, ([] : List Char)],
        '/' ∉ l := by
      intro l hl
      simp at hl
      rcases hl with rfl | rfl | rfl | rfl | rfl | rfl | rfl | rfl
      · simp
      · decide
      · exact natToChars_no_slash ver
      · intro hx
        rcases List.mem_append.mp hx with hx | hx
        · exact eventTypeBaseName_no_slash k hx
        · rcases List.mem_cons.mp hx with hx2 | hx2
          · exact absurd hx2 (by decide)
          · exact hf' hx2
      · decide
      · exact isUuidString_no_slash src hsrc
      · exact htoksl
      · simp
    rw [splitLevels_joinLevels _ (by simp) hAll]
    simp only [parseTopicLevels]
    rw [if_pos (by simp [string_mk_toList, htokE]; exact htokne)]
    rw [charsToNat_natToChars]
    rw [breakColon_base_suffix k f]
    simp only [Option.some_bind, string_mk_toList, eventKindFromName_base]
    rw [if_pos (uuidFromLevel_isSome_self src hsrc)]
    rw [if_pos (by decide : ((("-" : String)) == "-") = true)]
    simp [string_mk_toList]
  · -- filter suffix and user level both present
    obtain ⟨hu1, hu2, hu3⟩ := huser lvl rfl
    have hf' : '/' ∉ f.toList := hfilt f rfl
    simp only [CommunicationTopic.createByName, CommunicationTopic.getTopicName,
      CommunicationTopic.eventTypeName, Option.getD_none, Option.getD_some,
      string_toList_mk]
    have hAll : ∀ l ∈ [([] : List Char), PROTOCOL_NAME.toList,
        natToChars ver, (eventTypeBaseName k ++ ":" ++ f).toList, lvl.toList,
        src.toList, tok.toList, ([] : List Char)], '/' ∉ l := by
      intro l hl
      simp at hl
      rcases hl with rfl | rfl | rfl | rfl | rfl | rfl | rfl | rfl
      · simp
      · decide
      · exact natToChars_no_slash ver
      · intro hx
        rcases List.mem_append.mp hx with hx | hx
        · exact eventTypeBaseName_no_slash k hx
        · rcases List.mem_cons.mp hx with hx2 | hx2
          · exact absurd hx2 (by decide)
          · exact hf' hx2
      · exact hu2
      · exact isUuidString_no_slash src hsrc
      · exact htoksl
      · simp
    rw [splitLevels_joinLevels _ (by simp) hAll]
    simp only [parseTopicLevels]
    rw [if_pos (by simp [string_mk_toList, htokE]; exact htokne)]
    rw [charsToNat_natToChars]
    rw [breakColon_base_suffix k f]
    simp only [Option.some_bind, string_mk_toList, eventKindFromName_base]
    rw [if_pos (uuidFromLevel_isSome_self src hsrc)]
    rw [if_neg (by simpa using hu3)]
    rw [if_pos hu1]
    simp [string_mk_toList]

theorem token_toList (senderId : String) (n : Nat) :
    (senderId ++ "_" ++ String.mk (natToChars n)).toList
      = senderId.toList ++ '_' :: natToChars n := by
  rw [string_toList_append, string_toList_append,
    show ("_" : String).toList = ['_'] from rfl,
    List.append_assoc, List.singleton_append]
  rfl

theorem token_ne_nil (senderId : String) (n : Nat) :
    (senderId ++ "_" ++ String.mk (natToChars n)).toList ≠ [] := by
  rw [token_toList]
  simp

theorem token_no_slash (senderId : String) (n : Nat)
    (h : isUuidString senderId = true) :
    '/' ∉ (senderId ++ "_" ++ String.mk (natToChars n)).toList := by
  rw [token_toList]
  intro hx
  rcases List.mem_append.mp hx with hx | hx
  · exact isUuidString_no_slash senderId h hx
  · rcases List.mem_cons.mp hx with hx2 | hx2
    · exact absurd hx2 (by decide)
    · exact natToChars_no_slash n hx2

theorem suffix_no_slash (suffix : Option String)
    (hf : suffix.all isValidEventTypeFilter = true) :
    ∀ f, suffix = some f → '/' ∉ f.toList := by
  intro f hsf
  subst hsf
  have hvf : isValidEventTypeFilter f = true := by simpa [Option.all] using hf
  intro hx
  exact (((isValidEventTypeFilter_iff f).mp hvf).2 '/' hx).2.2.2 rfl

theorem readable_level_no_slash (nm uuid : String)
    (h : isUuidString uuid = true) :
    '/' ∉ (sanitize nm ++ "_" ++ uuid).toList := by
  rw [string_toList_append, string_toList_append]
  intro hx
  rcases List.mem_append.mp hx with hx | hx
  · rcases List.mem_append.mp hx with hx2 | hx2
    · exact sanitize_no_slash nm hx2
    · exact absurd hx2 (by decide)
  · exact isUuidString_no_slash uuid h hx

theorem sanitize_prefix_cancel (nm uuid : String) :
    sanitize nm ++ "_" ++ uuid = nm ++ "_" ++ uuid ↔ sanitize nm = nm := by
  constructor
  · intro h
    have hdata : (sanitize nm).toList ++ (("_" : String).toList ++ uuid.toList)
        = nm.toList ++ (("_" : String).toList ++ uuid.toList) := by
      have h2 := congrArg String.toList h
      rwa [string_toList_append, string_toList_append, string_toList_append,
        string_toList_append, List.append_assoc, List.append_assoc] at h2
    have hlen : (sanitize nm).toList.length = nm.toList.length := by
      show (nm.toList.map _).length = _
      exact List.length_map _ _
    exact String.ext (List.append_inj hdata hlen).1
  · intro h
    rw [h]

/-- Claim C1: decoding the encoded topic string round-trips every field of a
topic built from its constituents, in readable or non-readable mode; the
associated-user level additionally equals the raw `<name>_<uuid>` form in
readable mode iff the name contains only safe characters. -/
theorem claim_C1_topic_roundtrip (user : Option UserLike) (senderId : String)
    (k : CommunicationEventType) (suffix : Option String) (st : Option Nat)
    (version : Nat) (readable : Bool)
    (hs : isUuidString senderId = true)
    (hu : user.all (fun u => isUuidString u.objectId) = true)
    (hf : suffix.all isValidEventTypeFilter = true) :
    CommunicationTopic.createByName
        (CommunicationTopic.createByLevels user senderId k suffix st version
          readable).1.getTopicName
      = some (CommunicationTopic.createByLevels user senderId k suffix st
          version readable).1
    ∧ (readable = true → ∀ u, user = some u →
        ((CommunicationTopic.createByLevels user senderId k suffix st version
            readable).1.associatedUserId
          = some (u.name ++ "_" ++ u.objectId)
        ↔ ∀ c ∈ u.name.toList, isUnsafeTopicChar c = false)) := by
  rcases user with _ | u
  · constructor
    · simp only [CommunicationTopic.createByLevels, Option.map_none',
        Option.isSome_none, Bool.false_eq_true, if_false]
      exact createByName_getTopicName none senderId k suffix _ version hs
        (fun lvl h => Option.noConfusion h)
        (suffix_no_slash suffix hf)
        (token_ne_nil _ _) (token_no_slash _ _ hs)
    · intro _ u h
      exact Option.noConfusion h
  · have huuid : isUuidString u.objectId = true := by
      simpa [Option.all] using hu
    rcases readable with _ | _
    · constructor
      · simp only [CommunicationTopic.createByLevels, Option.map_some',
          Option.isSome_some, Bool.false_eq_true, if_false, if_true]
        exact createByName_getTopicName (some u.objectId) senderId k suffix _
          version hs
          (fun lvl h => by
            injection h with h2
            subst h2
            exact ⟨uuidFromLevel_isSome_self _ huuid,
              isUuidString_no_slash _ huuid, uuid_ne_dash _ huuid⟩)
          (suffix_no_slash suffix hf)
          (token_ne_nil _ _) (token_no_slash _ _ hs)
      · intro h
        exact absurd h (by simp)
    · constructor
      · simp only [CommunicationTopic.createByLevels, Option.map_some',
          Option.isSome_some, if_true]
        exact createByName_getTopicName
          (some (sanitize u.name ++ "_" ++ u.objectId)) senderId k suffix _
          version hs
          (fun lvl h => by
            injection h with h2
            subst h2
            exact ⟨uuidFromLevel_isSome_trailing _ _ huuid,
              readable_level_no_slash _ _ huuid,
              prefix_uuid_ne_dash _ _ huuid⟩)
          (suffix_no_slash suffix hf)
          (token_ne_nil _ _) (token_no_slash _ _ hs)
      · intro _ u' h
        injection h with h2
        subst h2
        simp only [CommunicationTopic.createByLevels, Option.map_some',
          Option.isSome_some, if_true]
        rw [Option.some_inj, sanitize_prefix_cancel]
        exact sanitize_eq_self_iff u.name

theorem claim_C1_witness :
    (isUuidString "3d34eb53-2536-4134-b0cd-8c406b94bb80" = true
      ∧ (some (⟨"User+/#HHO\x00", "0ea293e5-f8be-4a5d-886b-0e231e8234b2"⟩ :
          UserLike)).all (fun u => isUuidString u.objectId) = true
      ∧ (some "CoatyObject").all isValidEventTypeFilter = true)
    ∧ (CommunicationTopic.createByName
          (CommunicationTopic.createByLevels
            (some ⟨"User+/#HHO\x00", "0ea293e5-f8be-4a5d-886b-0e231e8234b2"⟩)
            "3d34eb53-2536-4134-b0cd-8c406b94bb80"
            CommunicationEventType.Advertise (some "CoatyObject") none 1
            true).1.getTopicName
        = some (CommunicationTopic.createByLevels
            (some ⟨"User+/#HHO\x00", "0ea293e5-f8be-4a5d-886b-0e231e8234b2"⟩)
            "3d34eb53-2536-4134-b0cd-8c406b94bb80"
            CommunicationEventType.Advertise (some "CoatyObject") none 1
            true).1
      ∧ (true = true → ∀ u,
          (some (⟨"User+/#HHO\x00", "0ea293e5-f8be-4a5d-886b-0e231e8234b2"⟩ :
            UserLike)) = some u →
          ((CommunicationTopic.createByLevels
              (some ⟨"User+/#HHO\x00", "0ea293e5-f8be-4a5d-886b-0e231e8234b2"⟩)
              "3d34eb53-2536-4134-b0cd-8c406b94bb80"
              CommunicationEventType.Advertise (some "CoatyObject") none 1
              true).1.associatedUserId = some (u.name ++ "_" ++ u.objectId)
            ↔ ∀ c ∈ u.name.toList, isUnsafeTopicChar c = false))) :=
  ⟨⟨by decide, by decide, by decide⟩,
   claim_C1_topic_roundtrip _ _ _ _ none 1 true (by decide) (by decide)
     (by decide)⟩
